import Mathlib

/-!
Verification of the HeliCheck marketing-site interaction logic.

The development shallowly embeds the interactive pieces of the site:
the carousel indicator segmentation of `gallery4.tsx`, the header
navigation controller (scroll threshold and mobile drawer links), the
animated-testimonials next/prev state machine, and the partner-logo
image-fallback check.  JavaScript numbers are modelled by exact
rationals (`ℚ`) where real-valued division occurs, and by `ℤ`/`ℕ`
where only integers flow; `Math.floor` is `Int.floor`, `Math.min` is
`min`, and the truncating `%` of JavaScript is `Int.tmod`.
-/

namespace HeliCheck

namespace Gallery4

/-- Jump-target list of the indicator dots, translated from
`getIndicatorMapping` in `gallery4.tsx`.  `itemCount` is `items.length`;
the optional `indicatorCount` prop is falsy when absent or zero, which
selects the identity branch, as does `indicatorCount >= items.length`.
Otherwise `step = items.length / indicatorCount` by real-valued division
and indicator `i` maps to `Math.min(Math.floor(i * step), items.length - 1)`. -/
def getIndicatorMapping (itemCount : ℕ) (indicatorCount : Option ℕ) : List ℤ :=
  if indicatorCount.getD 0 = 0 ∨ itemCount ≤ indicatorCount.getD 0 then
    (List.range itemCount).map (fun (i : ℕ) => (i : ℤ))
  else
    (List.range (indicatorCount.getD 0)).map (fun (i : ℕ) =>
      min ⌊(i : ℚ) * ((itemCount : ℚ) / (indicatorCount.getD 0 : ℚ))⌋ ((itemCount : ℤ) - 1))

/-- Active indicator for the current slide, translated from
`getActiveIndicator` in `gallery4.tsx`: the identity on the falsy /
too-large branch, otherwise
`Math.min(Math.floor(slideIndex / segmentSize), indicatorCount - 1)`
with `segmentSize = items.length / indicatorCount`. -/
def getActiveIndicator (itemCount : ℕ) (indicatorCount : Option ℕ) (slideIndex : ℤ) : ℤ :=
  if indicatorCount.getD 0 = 0 ∨ itemCount ≤ indicatorCount.getD 0 then
    slideIndex
  else
    min ⌊(slideIndex : ℚ) / ((itemCount : ℚ) / (indicatorCount.getD 0 : ℚ))⌋
      ((indicatorCount.getD 0 : ℤ) - 1)

/-- Exact-rational floor of `i * (n / k)` is natural division `i * n / k`. -/
theorem floor_mul_div_cast (i n k : ℕ) :
    ⌊(i : ℚ) * ((n : ℚ) / (k : ℚ))⌋ = ((i * n / k : ℕ) : ℤ) := by
  have h : (i : ℚ) * ((n : ℚ) / (k : ℚ)) = ((i * n : ℕ) : ℚ) / ((k : ℕ) : ℚ) := by
    push_cast
    ring
  rw [h, ← Int.natCast_floor_eq_floor (div_nonneg (Nat.cast_nonneg _) (Nat.cast_nonneg _)),
    Nat.floor_div_eq_div]

/-- Exact-rational floor of `s / (n / k)` is natural division `s * k / n`. -/
theorem floor_div_div_cast (s n k : ℕ) :
    ⌊(s : ℚ) / ((n : ℚ) / (k : ℚ))⌋ = ((s * k / n : ℕ) : ℤ) := by
  have h : (s : ℚ) / ((n : ℚ) / (k : ℚ)) = ((s * k : ℕ) : ℚ) / ((n : ℕ) : ℚ) := by
    rw [div_div_eq_mul_div]
    push_cast
    ring
  rw [h, ← Int.natCast_floor_eq_floor (div_nonneg (Nat.cast_nonneg _) (Nat.cast_nonneg _)),
    Nat.floor_div_eq_div]

/-- Closed form of the non-identity branch of `getIndicatorMapping`. -/
theorem mapping_eq (n k : ℕ) (hk : k ≠ 0) (hkn : k < n) :
    getIndicatorMapping n (some k)
      = (List.range k).map (fun i => min ((i * n / k : ℕ) : ℤ) ((n : ℤ) - 1)) := by
  unfold getIndicatorMapping
  simp only [Option.getD_some]
  rw [if_neg (by omega)]
  exact List.map_congr_left fun i _ => by rw [floor_mul_div_cast]

/-- Closed form of the non-identity branch of `getActiveIndicator` at a
natural slide index. -/
theorem active_eq (n k s : ℕ) (hk : k ≠ 0) (hkn : k < n) :
    getActiveIndicator n (some k) (s : ℤ) = min ((s * k / n : ℕ) : ℤ) ((k : ℤ) - 1) := by
  unfold getActiveIndicator
  simp only [Option.getD_some]
  rw [if_neg (by omega)]
  have h : (((s : ℤ) : ℚ)) = ((s : ℕ) : ℚ) := by push_cast; ring
  rw [h, floor_div_div_cast]

/-- Identity branch of `getIndicatorMapping`. -/
theorem mapping_identity (n : ℕ) (o : Option ℕ) (h : o.getD 0 = 0 ∨ n ≤ o.getD 0) :
    getIndicatorMapping n o = (List.range n).map (fun (i : ℕ) => (i : ℤ)) := by
  unfold getIndicatorMapping
  rw [if_pos h]

/-- Identity branch of `getActiveIndicator`. -/
theorem active_identity (n : ℕ) (o : Option ℕ) (h : o.getD 0 = 0 ∨ n ≤ o.getD 0) (s : ℤ) :
    getActiveIndicator n o s = s := by
  unfold getActiveIndicator
  rw [if_pos h]

/-- Entry `i` of the non-identity mapping. -/
theorem mapping_getElem (n k : ℕ) (hk : k ≠ 0) (hkn : k < n) (i : ℕ) (hi : i < k) :
    (getIndicatorMapping n (some k))[i]? = some (min ((i * n / k : ℕ) : ℤ) ((n : ℤ) - 1)) := by
  rw [mapping_eq n k hk hkn]
  simp [List.getElem?_range hi]

/-- Entry `i` of the identity mapping. -/
theorem mapping_identity_getElem (n : ℕ) (o : Option ℕ) (h : o.getD 0 = 0 ∨ n ≤ o.getD 0)
    (i : ℕ) (hi : i < n) : (getIndicatorMapping n o)[i]? = some (i : ℤ) := by
  rw [mapping_identity n o h]
  simp [List.getElem?_range hi]

/-- Jump targets grow strictly with the indicator index when `k < n`. -/
theorem jump_div_lt (n k i j : ℕ) (hk : 0 < k) (hkn : k < n) (hij : i < j) :
    i * n / k < j * n / k := by
  have h3 : (i + 1) * n ≤ j * n := Nat.mul_le_mul (by omega) (le_refl n)
  rw [Nat.succ_mul] at h3
  have h2 : i * n + k ≤ j * n := by linarith
  calc i * n / k < i * n / k + 1 := Nat.lt_succ_self _
    _ = (i * n + k) / k := (Nat.add_div_right _ hk).symm
    _ ≤ j * n / k := Nat.div_le_div_right h2

/-- Raw jump targets never exceed `n - 1`, so the clamp is inert. -/
theorem jump_le_pred (n k i : ℕ) (hk : 0 < k) (hkn : k < n) (hik : i < k) :
    i * n / k ≤ n - 1 := by
  have h1 : i * n / k < n := by
    rw [Nat.div_lt_iff_lt_mul hk]
    nlinarith
  exact Nat.le_pred_of_lt h1

/-- C1: for every itemCount > 0 and indicatorCount in [1, itemCount], the segmentation
returns exactly indicatorCount jump targets, adjacent targets are non-decreasing, every
target lies in [0, itemCount - 1], the first target is 0, and getActiveIndicator sends
every slide index of [0, itemCount - 1] into [0, indicatorCount - 1]. -/
theorem C1_indicator_segmentation (n k : ℕ) (hn : 0 < n) (hk1 : 1 ≤ k) (hkn : k ≤ n) :
    (getIndicatorMapping n (some k)).length = k ∧
    (∀ i : ℕ, ∀ x y : ℤ, (getIndicatorMapping n (some k))[i]? = some x →
      (getIndicatorMapping n (some k))[i + 1]? = some y → x ≤ y) ∧
    (∀ t ∈ getIndicatorMapping n (some k), 0 ≤ t ∧ t ≤ (n : ℤ) - 1) ∧
    (getIndicatorMapping n (some k))[0]? = some 0 ∧
    (∀ s : ℕ, s < n → 0 ≤ getActiveIndicator n (some k) (s : ℤ) ∧
      getActiveIndicator n (some k) (s : ℤ) ≤ (k : ℤ) - 1) := by
  rcases eq_or_lt_of_le hkn with rfl | hlt
  · have hid := mapping_identity k (some k) (Or.inr le_rfl)
    refine ⟨?_, ?_, ?_, ?_, ?_⟩
    · rw [hid]
      simp
    · intro i x y hx hy
      rw [hid] at hx hy
      by_cases h2 : i + 1 < k
      · have h1 : i < k := by omega
        simp [List.getElem?_range h1] at hx
        simp [List.getElem?_range h2] at hy
        omega
      · rw [List.getElem?_eq_none (by simpa using h2)] at hy
        exact absurd hy (by simp)
    · intro t ht
      rw [hid] at ht
      simp only [List.mem_map, List.mem_range] at ht
      obtain ⟨i, hi, rfl⟩ := ht
      constructor <;> omega
    · rw [mapping_identity_getElem k (some k) (Or.inr le_rfl) 0 hn]
      norm_num
    · intro s hs
      rw [active_identity k (some k) (Or.inr le_rfl)]
      constructor <;> omega
  · have hk0 : k ≠ 0 := by omega
    refine ⟨?_, ?_, ?_, ?_, ?_⟩
    · rw [mapping_eq n k hk0 hlt]
      simp
    · intro i x y hx hy
      by_cases h2 : i + 1 < k
      · have h1 : i < k := by omega
        rw [mapping_getElem n k hk0 hlt i h1] at hx
        rw [mapping_getElem n k hk0 hlt (i + 1) h2] at hy
        injection hx with hx
        injection hy with hy
        subst hx
        subst hy
        have hdiv : i * n / k ≤ (i + 1) * n / k :=
          Nat.div_le_div_right (Nat.mul_le_mul (by omega) (le_refl n))
        exact min_le_min (by exact_mod_cast hdiv) le_rfl
      · rw [mapping_eq n k hk0 hlt] at hy
        rw [List.getElem?_eq_none (by simpa using h2)] at hy
        exact absurd hy (by simp)
    · intro t ht
      rw [mapping_eq n k hk0 hlt] at ht
      simp only [List.mem_map, List.mem_range] at ht
      obtain ⟨i, hi, rfl⟩ := ht
      refine ⟨le_min (by positivity) (by omega), min_le_right _ _⟩
    · rw [mapping_getElem n k hk0 hlt 0 (by omega)]
      have h0 : (0 : ℤ) ≤ (n : ℤ) - 1 := by omega
      simp [Nat.zero_div, min_eq_left h0]
    · intro s hs
      rw [active_eq n k s hk0 hlt]
      refine ⟨le_min (by positivity) (by omega), min_le_right _ _⟩

/-- Witness for C1 at itemCount 5, indicatorCount 3. -/
theorem C1_indicator_segmentation_witness :
    0 < 5 ∧ 1 ≤ 3 ∧ 3 ≤ 5 ∧
    ((getIndicatorMapping 5 (some 3)).length = 3 ∧
    (∀ i : ℕ, ∀ x y : ℤ, (getIndicatorMapping 5 (some 3))[i]? = some x →
      (getIndicatorMapping 5 (some 3))[i + 1]? = some y → x ≤ y) ∧
    (∀ t ∈ getIndicatorMapping 5 (some 3), 0 ≤ t ∧ t ≤ (5 : ℤ) - 1) ∧
    (getIndicatorMapping 5 (some 3))[0]? = some 0 ∧
    (∀ s : ℕ, s < 5 → 0 ≤ getActiveIndicator 5 (some 3) (s : ℤ) ∧
      getActiveIndicator 5 (some 3) (s : ℤ) ≤ (3 : ℤ) - 1)) :=
  ⟨by norm_num, by norm_num, by norm_num,
    C1_indicator_segmentation 5 3 (by norm_num) (by norm_num) (by norm_num)⟩

/-- C2: with a positive indicatorCount below itemCount, indicator `i` jumps to
`floor(i * itemCount / indicatorCount)` clamped to `itemCount - 1`, the active
indicator for slide `s` is `floor(s / (itemCount / indicatorCount))` clamped to
`indicatorCount - 1` (which as an exact rational is `floor(s * indicatorCount /
itemCount)`), and in particular itemCount 5 with indicatorCount 3 yields jump
targets `[0, 1, 3]` while slide 4 yields active indicator 2. -/
theorem C2_segment_formula (n k : ℕ) (hk : 0 < k) (hkn : k < n) :
    (∀ i : ℕ, i < k → (getIndicatorMapping n (some k))[i]?
      = some (min ((i * n / k : ℕ) : ℤ) ((n : ℤ) - 1))) ∧
    (∀ s : ℕ, s < n → getActiveIndicator n (some k) (s : ℤ)
      = min ((s * k / n : ℕ) : ℤ) ((k : ℤ) - 1)) ∧
    getIndicatorMapping 5 (some 3) = [0, 1, 3] ∧
    getActiveIndicator 5 (some 3) 4 = 2 := by
  have hk0 : k ≠ 0 := by omega
  refine ⟨?_, ?_, ?_, ?_⟩
  · intro i hi
    exact mapping_getElem n k hk0 hkn i hi
  · intro s hs
    exact active_eq n k s hk0 hkn
  · rw [mapping_eq 5 3 (by norm_num) (by norm_num)]
    decide
  · rw [show (4 : ℤ) = ((4 : ℕ) : ℤ) from rfl, active_eq 5 3 4 (by norm_num) (by norm_num)]
    decide

/-- Witness for C2 at itemCount 5, indicatorCount 3. -/
theorem C2_segment_formula_witness :
    0 < 3 ∧ 3 < 5 ∧
    ((∀ i : ℕ, i < 3 → (getIndicatorMapping 5 (some 3))[i]?
      = some (min ((i * 5 / 3 : ℕ) : ℤ) ((5 : ℤ) - 1))) ∧
    (∀ s : ℕ, s < 5 → getActiveIndicator 5 (some 3) (s : ℤ)
      = min ((s * 3 / 5 : ℕ) : ℤ) ((3 : ℤ) - 1)) ∧
    getIndicatorMapping 5 (some 3) = [0, 1, 3] ∧
    getActiveIndicator 5 (some 3) 4 = 2) :=
  ⟨by norm_num, by norm_num, C2_segment_formula 5 3 (by norm_num) (by norm_num)⟩

/-- C3: when indicatorCount is absent or at least itemCount the segmentation is
the identity: the mapping is `[0, 1, ..., itemCount - 1]` (entry `i` equals `i`),
the active indicator of any slide `s` is `s` itself, and itemCount 0 yields the
empty mapping. -/
theorem C3_identity_mapping (n : ℕ) (o : Option ℕ) :
    getIndicatorMapping n none = (List.range n).map (fun (i : ℕ) => (i : ℤ)) ∧
    (∀ k : ℕ, n ≤ k → getIndicatorMapping n (some k)
      = (List.range n).map (fun (i : ℕ) => (i : ℤ))) ∧
    (∀ i : ℕ, i < n → (getIndicatorMapping n none)[i]? = some (i : ℤ)) ∧
    (∀ k : ℕ, n ≤ k → ∀ i : ℕ, i < n → (getIndicatorMapping n (some k))[i]? = some (i : ℤ)) ∧
    (∀ s : ℤ, getActiveIndicator n none s = s) ∧
    (∀ k : ℕ, n ≤ k → ∀ s : ℤ, getActiveIndicator n (some k) s = s) ∧
    getIndicatorMapping 0 o = [] := by
  refine ⟨mapping_identity n none (Or.inl rfl), fun k hk =>
    mapping_identity n (some k) (Or.inr (by simpa using hk)), fun i hi =>
    mapping_identity_getElem n none (Or.inl rfl) i hi, fun k hk i hi =>
    mapping_identity_getElem n (some k) (Or.inr (by simpa using hk)) i hi, fun s =>
    active_identity n none (Or.inl rfl) s, fun k hk s =>
    active_identity n (some k) (Or.inr (by simpa using hk)) s, ?_⟩
  rw [mapping_identity 0 o (Or.inr (Nat.zero_le _))]
  simp

/-- Witness for C3 at itemCount 4, indicatorCount 7 and absent. -/
theorem C3_identity_mapping_witness :
    getIndicatorMapping 4 none = [0, 1, 2, 3] ∧
    getIndicatorMapping 4 (some 7) = [0, 1, 2, 3] ∧
    getActiveIndicator 4 (some 7) 2 = 2 ∧
    getIndicatorMapping 0 (some 7) = [] := by
  have h4 := C3_identity_mapping 4 (some 7)
  have h0 := C3_identity_mapping 0 (some 7)
  refine ⟨?_, ?_, h4.2.2.2.2.2.1 7 (by norm_num) 2, h0.2.2.2.2.2.2⟩
  · rw [h4.1]
    decide
  · rw [h4.2.1 7 (by norm_num)]
    decide

/-- C9: for 1 ≤ indicatorCount < itemCount the jump-target sequence is strictly
increasing (hence pairwise distinct) and the clamp to itemCount - 1 is inert:
the raw value `floor(i * itemCount / indicatorCount)` already stays at or below
`itemCount - 1` for every indicator index. -/
theorem C9_strictly_increasing (n k : ℕ) (hk : 1 ≤ k) (hkn : k < n) :
    (∀ i : ℕ, i < k → i * n / k ≤ n - 1) ∧
    (∀ i : ℕ, i < k → (getIndicatorMapping n (some k))[i]? = some ((i * n / k : ℕ) : ℤ)) ∧
    (∀ i j : ℕ, i < j → j < k →
      ∀ x y : ℤ, (getIndicatorMapping n (some k))[i]? = some x →
        (getIndicatorMapping n (some k))[j]? = some y → x < y) := by
  have hk0 : k ≠ 0 := by omega
  have hn : 0 < n := by omega
  have hunclamped : ∀ i : ℕ, i < k →
      (getIndicatorMapping n (some k))[i]? = some ((i * n / k : ℕ) : ℤ) := by
    intro i hi
    rw [mapping_getElem n k hk0 hkn i hi]
    have hle : i * n / k ≤ n - 1 := jump_le_pred n k i (by omega) hkn hi
    have hle' : ((i * n / k : ℕ) : ℤ) ≤ (n : ℤ) - 1 := by omega
    rw [min_eq_left hle']
  refine ⟨fun i hi => jump_le_pred n k i (by omega) hkn hi, hunclamped, ?_⟩
  intro i j hij hj x y hx hy
  rw [hunclamped i (by omega)] at hx
  rw [hunclamped j hj] at hy
  injection hx with hx
  injection hy with hy
  subst hx
  subst hy
  exact_mod_cast jump_div_lt n k i j (by omega) hkn hij

/-- Witness for C9 at itemCount 5, indicatorCount 3, indices 1 and 2. -/
theorem C9_strictly_increasing_witness :
    1 ≤ 3 ∧ 3 < 5 ∧ 1 * 5 / 3 ≤ 5 - 1 ∧
    (getIndicatorMapping 5 (some 3))[1]? = some ((1 * 5 / 3 : ℕ) : ℤ) ∧
    ∀ x y : ℤ, (getIndicatorMapping 5 (some 3))[1]? = some x →
      (getIndicatorMapping 5 (some 3))[2]? = some y → x < y := by
  have h := C9_strictly_increasing 5 3 (by norm_num) (by norm_num)
  exact ⟨by norm_num, by norm_num, h.1 1 (by norm_num), h.2.1 1 (by norm_num),
    fun x y hx hy => h.2.2 1 2 (by norm_num) (by norm_num) x y hx hy⟩

end Gallery4

namespace Header

/-- Navigation controller state of the Header component: `isScrolled` drives
the chrome change, `isOpen` the mobile drawer overlay. -/
structure NavState where
  isScrolled : Bool
  isOpen : Bool

/-- Scroll handler of the Header component:
`setIsScrolled(window.scrollY > 10)`.  The vertical offset is an exact
rational; `isOpen` is not touched by this handler. -/
def handleScroll (scrollY : ℚ) (st : NavState) : NavState :=
  { st with isScrolled := decide (scrollY > 10) }

/-- One entry of the `mobileLinks` array of the Header component. -/
structure MobileLink where
  href : String
  label : String
  isSection : Bool
deriving DecidableEq

/-- Literal `mobileLinks` array of the Header component. -/
def mobileLinks : List MobileLink :=
  [⟨"#services", "Services", true⟩,
   ⟨"#case-studies", "Case Studies", true⟩,
   ⟨"#team", "Team", true⟩,
   ⟨"/hsec", "HSEC", false⟩,
   ⟨"/contact", "Contact Us", false⟩]

/-- Observable outcome of one run of the mobile-link onClick handler: whether
`preventDefault` ran, the `isOpen` value once the handler returns, and the
timer callbacks scheduled via `setTimeout`, as (delay in ms, target id). -/
structure ClickOutcome where
  defaultPrevented : Bool
  isOpen : Bool
  scheduled : List (ℕ × String)
deriving DecidableEq

/-- Mobile drawer link onClick handler of the Header component: when
`link.isSection` holds it prevents default, sets `isOpen` to false and
schedules one 100 ms callback scrolling the element whose id is the href
stripped of its hash; otherwise the handler body does nothing.  JavaScript
`replace` with a string pattern rewrites the first occurrence; every section
href holds a single leading hash, so `String.replace` agrees here. -/
def mobileLinkClick (link : MobileLink) (st : NavState) : ClickOutcome :=
  if link.isSection then
    { defaultPrevented := true
      isOpen := false
      scheduled := [(100, link.href.replace "#" "")] }
  else
    { defaultPrevented := false
      isOpen := st.isOpen
      scheduled := [] }

/-- document.getElementById, over the list of element ids present in the
document. -/
def getElementById (doc : List String) (id : String) : Option String :=
  doc.find? (fun e => e == id)

/-- Deferred timer callback
`document.getElementById(id)?.scrollIntoView(\x7b behavior: "smooth" \x7d)`,
returning the list of elements scrolled into view.  The optional chain turns a
missing element into a no-op; the function is total, so no exception
propagates. -/
def scrollCallback (doc : List String) (id : String) : List String :=
  match getElementById doc id with
  | some e => [e]
  | none => []

/-- C5: after the scroll handler runs, isScrolled is true exactly when the
vertical offset exceeds the 10px threshold and false exactly when the offset is
at or under 10px; the drawer state is untouched. -/
theorem C5_scroll_threshold (y : ℚ) (st : NavState) :
    ((handleScroll y st).isScrolled = true ↔ 10 < y) ∧
    ((handleScroll y st).isScrolled = false ↔ y ≤ 10) ∧
    (handleScroll y st).isOpen = st.isOpen := by
  refine ⟨?_, ?_, rfl⟩
  · simp [handleScroll]
  · simp [handleScroll, not_lt]

/-- C4: for every in-page mobile link, the click handler prevents default
navigation, sets isOpen to false within the handler, and schedules exactly one
scroll callback on a fixed 100 ms timer; when no element with the target id
exists in the document the deferred callback scrolls nothing, and being total
it propagates no exception. -/
theorem C4_section_link_click (link : MobileLink) (st : NavState)
    (hmem : link ∈ mobileLinks) (hsec : link.isSection = true) :
    (mobileLinkClick link st).defaultPrevented = true ∧
    (mobileLinkClick link st).isOpen = false ∧
    (mobileLinkClick link st).scheduled = [(100, link.href.replace "#" "")] ∧
    (∀ doc : List String, getElementById doc (link.href.replace "#" "") = none →
      scrollCallback doc (link.href.replace "#" "") = []) := by
  refine ⟨?_, ?_, ?_, ?_⟩
  · simp [mobileLinkClick, hsec]
  · simp [mobileLinkClick, hsec]
  · simp [mobileLinkClick, hsec]
  · intro doc h
    unfold scrollCallback
    rw [h]

/-- Witness for C4 at the Services link in a document without the target. -/
theorem C4_section_link_click_witness :
    (⟨"#services", "Services", true⟩ : MobileLink) ∈ mobileLinks ∧
    (MobileLink.isSection ⟨"#services", "Services", true⟩ = true) ∧
    ((mobileLinkClick ⟨"#services", "Services", true⟩ ⟨false, true⟩).defaultPrevented = true ∧
    (mobileLinkClick ⟨"#services", "Services", true⟩ ⟨false, true⟩).isOpen = false ∧
    (mobileLinkClick ⟨"#services", "Services", true⟩ ⟨false, true⟩).scheduled
      = [(100, String.replace "#services" "#" "")] ∧
    (∀ doc : List String, getElementById doc (String.replace "#services" "#" "") = none →
      scrollCallback doc (String.replace "#services" "#" "") = [])) :=
  ⟨List.mem_cons_self _ _, rfl,
    C4_section_link_click ⟨"#services", "Services", true⟩ ⟨false, true⟩
      (List.mem_cons_self _ _) rfl⟩

/-- C7: the mobile links that are absolute routes rather than in-page anchors
are exactly the HSEC and Contact Us entries, and for them the click handler
performs no preventDefault, leaves isOpen as it was, and schedules no deferred
scroll timer. -/
theorem C7_route_link_click (link : MobileLink) (st : NavState)
    (hmem : link ∈ mobileLinks) (hsec : link.isSection = false) :
    (link.href = "/hsec" ∧ link.label = "HSEC" ∨
      link.href = "/contact" ∧ link.label = "Contact Us") ∧
    (mobileLinkClick link st).defaultPrevented = false ∧
    (mobileLinkClick link st).isOpen = st.isOpen ∧
    (mobileLinkClick link st).scheduled = [] := by
  refine ⟨?_, ?_, ?_, ?_⟩
  · fin_cases hmem <;> simp_all
  · simp [mobileLinkClick, hsec]
  · simp [mobileLinkClick, hsec]
  · simp [mobileLinkClick, hsec]

/-- Witness for C7 at the HSEC link. -/
theorem C7_route_link_click_witness :
    (⟨"/hsec", "HSEC", false⟩ : MobileLink) ∈ mobileLinks ∧
    (MobileLink.isSection ⟨"/hsec", "HSEC", false⟩ = false) ∧
    (((⟨"/hsec", "HSEC", false⟩ : MobileLink).href = "/hsec" ∧
        (⟨"/hsec", "HSEC", false⟩ : MobileLink).label = "HSEC" ∨
      (⟨"/hsec", "HSEC", false⟩ : MobileLink).href = "/contact" ∧
        (⟨"/hsec", "HSEC", false⟩ : MobileLink).label = "Contact Us") ∧
    (mobileLinkClick ⟨"/hsec", "HSEC", false⟩ ⟨true, true⟩).defaultPrevented = false ∧
    (mobileLinkClick ⟨"/hsec", "HSEC", false⟩ ⟨true, true⟩).isOpen
      = (NavState.mk true true).isOpen ∧
    (mobileLinkClick ⟨"/hsec", "HSEC", false⟩ ⟨true, true⟩).scheduled = []) :=
  ⟨by decide, rfl,
    C7_route_link_click ⟨"/hsec", "HSEC", false⟩ ⟨true, true⟩ (by decide) rfl⟩

end Header

namespace Testimonials

/-- handleNext of AnimatedTestimonials:
`setActive((prev + 1) % testimonials.length)`.  The `%` of JavaScript
truncates toward zero, which is `Int.tmod`. -/
def handleNext (len : ℕ) (active : ℤ) : ℤ :=
  Int.tmod (active + 1) (len : ℤ)

/-- handlePrev of AnimatedTestimonials:
`setActive((prev - 1 + testimonials.length) % testimonials.length)`. -/
def handlePrev (len : ℕ) (active : ℤ) : ℤ :=
  Int.tmod (active - 1 + (len : ℤ)) (len : ℤ)

/-- User events driving the testimonial carousel. -/
inductive Event where
  | next
  | prev
deriving DecidableEq

/-- One transition of the active index. -/
def step (len : ℕ) (active : ℤ) : Event → ℤ
  | Event.next => handleNext len active
  | Event.prev => handlePrev len active

/-- Active index after a sequence of events, from the initial state
`useState(0)`. -/
def run (len : ℕ) (evs : List Event) : ℤ :=
  evs.foldl (step len) 0

/-- C6: with N > 0 testimonials, handleNext computes (a + 1) mod N and
handlePrev computes (a - 1 + N) mod N, both preserve 0 ≤ active < N, and every
state reachable from the initial index 0 under any sequence of next and prev
events satisfies 0 ≤ active < N. -/
theorem C6_active_invariant (len : ℕ) (hlen : 0 < len) (evs : List Event) :
    (∀ a : ℤ, 0 ≤ a → a < (len : ℤ) →
      handleNext len a = (a + 1) % (len : ℤ) ∧
      handlePrev len a = (a - 1 + (len : ℤ)) % (len : ℤ) ∧
      (0 ≤ handleNext len a ∧ handleNext len a < (len : ℤ)) ∧
      (0 ≤ handlePrev len a ∧ handlePrev len a < (len : ℤ))) ∧
    (0 ≤ run len evs ∧ run len evs < (len : ℤ)) := by
  have hlen' : (0 : ℤ) < (len : ℤ) := by exact_mod_cast hlen
  have hnext : ∀ a : ℤ, 0 ≤ a → 0 ≤ handleNext len a ∧ handleNext len a < (len : ℤ) := by
    intro a ha0
    exact ⟨Int.tmod_nonneg _ (by omega), Int.tmod_lt_of_pos _ hlen'⟩
  have hprev : ∀ a : ℤ, 0 ≤ a → 0 ≤ handlePrev len a ∧ handlePrev len a < (len : ℤ) := by
    intro a ha0
    exact ⟨Int.tmod_nonneg _ (by omega), Int.tmod_lt_of_pos _ hlen'⟩
  refine ⟨?_, ?_⟩
  · intro a ha0 halt
    exact ⟨Int.tmod_eq_emod (by omega) (by omega), Int.tmod_eq_emod (by omega) (by omega),
      hnext a ha0, hprev a ha0⟩
  · suffices h : ∀ (l : List Event) (a : ℤ), 0 ≤ a → a < (len : ℤ) →
        0 ≤ l.foldl (step len) a ∧ l.foldl (step len) a < (len : ℤ) from
      h evs 0 le_rfl hlen'
    intro l
    induction l with
    | nil => exact fun a h0 h1 => ⟨h0, h1⟩
    | cons e t ih =>
      intro a h0 h1
      have hs : 0 ≤ step len a e ∧ step len a e < (len : ℤ) := by
        cases e
        · exact hnext a h0
        · exact hprev a h0
      exact ih _ hs.1 hs.2

/-- Witness for C6 with two testimonials and the sequence next, prev, prev. -/
theorem C6_active_invariant_witness :
    0 < 2 ∧
    (0 ≤ run 2 [Event.next, Event.prev, Event.prev] ∧
      run 2 [Event.next, Event.prev, Event.prev] < ((2 : ℕ) : ℤ)) :=
  ⟨by norm_num,
    (C6_active_invariant 2 (by norm_num) [Event.next, Event.prev, Event.prev]).2⟩

end Testimonials

namespace Partners

/-- One record of the partnerLogos array of the Partners component. -/
structure PartnerLogo where
  id : String
  description : String
  image : String
  fallbackImage : String
  className : String
deriving DecidableEq

/-- Literal partnerLogos array of the Partners component. -/
def partnerLogos : List PartnerLogo :=
  [⟨"logo-1", "Rio Tinto", "/images/partners/rio.png",
    "https://shadcnblocks.com/images/block/logos/astro.svg", "h-8 w-auto"⟩,
   ⟨"logo-2", "BHP", "/images/partners/BHP.png",
    "https://shadcnblocks.com/images/block/logos/figma.svg", "h-8 w-auto"⟩,
   ⟨"logo-3", "Anglo American", "/images/partners/anglo.png",
    "https://shadcnblocks.com/images/block/logos/nextjs.svg", "h-8 w-auto"⟩,
   ⟨"logo-4", "Glencore", "/images/partners/glencore.png",
    "https://shadcnblocks.com/images/block/logos/react.png", "h-8 w-auto"⟩,
   ⟨"logo-5", "Newmont", "/images/partners/newmont.png",
    "https://shadcnblocks.com/images/block/logos/shadcn-ui.svg", "h-8 w-auto"⟩,
   ⟨"logo-6", "Codelco", "/images/partners/coldeco.png",
    "https://shadcnblocks.com/images/block/logos/supabase.svg", "h-8 w-auto"⟩,
   ⟨"logo-7", "Harmony Gold", "/images/partners/HMY_original.png",
    "https://shadcnblocks.com/images/block/logos/tailwind.svg", "h-8 w-auto"⟩,
   ⟨"logo-8", "Ivanhoe Mines", "/images/partners/ivanhoe.png",
    "https://shadcnblocks.com/images/block/logos/vercel.svg", "h-8 w-auto"⟩,
   ⟨"logo-9", "Northern Dynasty Minerals", "/images/partners/nak.png",
    "https://shadcnblocks.com/images/block/logos/vercel.svg", "h-8 w-auto"⟩,
   ⟨"logo-10", "Taseko Mines", "/images/partners/taseko.png",
    "https://shadcnblocks.com/images/block/logos/vercel.svg", "h-8 w-auto"⟩]

/-- Outcome of the `fetch(logo.image, \x7b method: 'HEAD' \x7d)` availability
check for one URL: `ok` is a resolved response with `res.ok` true, `notOk` a
resolved response with it false, `err` a rejected fetch. -/
inductive FetchOutcome where
  | ok
  | notOk
  | err
deriving DecidableEq

/-- JavaScript `a || b` on strings: the empty string is the only falsy
string. -/
def stringOr (a b : String) : String :=
  if a = "" then b else a

/-- Body of the Promise.all map inside checkImages: keep the logo when the
HEAD check succeeds; otherwise, and also when the fetch rejects, replace the
image by `logo.fallbackImage || logo.image`. -/
def checkImage (fetchHead : String → FetchOutcome) (logo : PartnerLogo) : PartnerLogo :=
  match fetchHead logo.image with
  | FetchOutcome.ok => logo
  | FetchOutcome.notOk => { logo with image := stringOr logo.fallbackImage logo.image }
  | FetchOutcome.err => { logo with image := stringOr logo.fallbackImage logo.image }

/-- checkImages of the Partners component: the list passed to the single
`setLogos` call of the mount effect, computed from `partnerLogos`. -/
def checkImages (fetchHead : String → FetchOutcome) (logos : List PartnerLogo) :
    List PartnerLogo :=
  logos.map (checkImage fetchHead)

/-- Image chosen by one availability check, as a closed form. -/
theorem checkImage_image (fetchHead : String → FetchOutcome) (l : PartnerLogo) :
    (checkImage fetchHead l).image
      = if fetchHead l.image = FetchOutcome.ok then l.image
        else stringOr l.fallbackImage l.image := by
  unfold checkImage
  cases h : fetchHead l.image <;> simp [h]

/-- C8: the displayed logo list arises from the one mount-time application of
checkImages to partnerLogos; each displayed image URL equals the original
exactly when its availability check succeeds, and otherwise the statically
supplied fallback — falling back to the original URL only when the supplied
fallback is empty. -/
theorem C8_image_fallback (fetchHead : String → FetchOutcome) (logo : PartnerLogo) :
    ((checkImages fetchHead partnerLogos).map PartnerLogo.image
      = partnerLogos.map (fun l =>
          if fetchHead l.image = FetchOutcome.ok then l.image
          else stringOr l.fallbackImage l.image)) ∧
    (fetchHead logo.image = FetchOutcome.ok →
      (checkImage fetchHead logo).image = logo.image) ∧
    (fetchHead logo.image ≠ FetchOutcome.ok → logo.fallbackImage ≠ "" →
      (checkImage fetchHead logo).image = logo.fallbackImage) ∧
    (fetchHead logo.image ≠ FetchOutcome.ok → logo.fallbackImage = "" →
      (checkImage fetchHead logo).image = logo.image) := by
  refine ⟨?_, ?_, ?_, ?_⟩
  · rw [checkImages, List.map_map]
    exact List.map_congr_left fun l _ => checkImage_image fetchHead l
  · intro h
    rw [checkImage_image, if_pos h]
  · intro h hfb
    rw [checkImage_image, if_neg h]
    simp [stringOr, hfb]
  · intro h hfb
    rw [checkImage_image, if_neg h]
    simp [stringOr, hfb]

/-- Witness for C8: every local image fails its check, so the Rio Tinto logo
displays its fallback URL. -/
theorem C8_image_fallback_witness :
    ((fun _ => FetchOutcome.notOk : String → FetchOutcome) "/images/partners/rio.png"
        ≠ FetchOutcome.ok) ∧
    ("https://shadcnblocks.com/images/block/logos/astro.svg" ≠ "") ∧
    ((checkImage (fun _ => FetchOutcome.notOk)
        ⟨"logo-1", "Rio Tinto", "/images/partners/rio.png",
          "https://shadcnblocks.com/images/block/logos/astro.svg", "h-8 w-auto"⟩).image
      = "https://shadcnblocks.com/images/block/logos/astro.svg") :=
  ⟨by decide, by decide,
    (C8_image_fallback (fun _ => FetchOutcome.notOk)
        ⟨"logo-1", "Rio Tinto", "/images/partners/rio.png",
          "https://shadcnblocks.com/images/block/logos/astro.svg", "h-8 w-auto"⟩).2.2.1
      (by decide) (by decide)⟩

/-- C10: the mount-time check is a frame-preserving map: the output list keeps
the length and order of the input, and at every position only the image field
can change — id, description, className and fallbackImage are unchanged
whatever the fetch outcomes. -/
theorem C10_checkImages_frame (fetchHead : String → FetchOutcome)
    (logos : List PartnerLogo) :
    (checkImages fetchHead logos).length = logos.length ∧
    (checkImages fetchHead logos).map
        (fun l => (l.id, l.description, l.className, l.fallbackImage))
      = logos.map (fun l => (l.id, l.description, l.className, l.fallbackImage)) := by
  constructor
  · simp [checkImages]
  · rw [checkImages, List.map_map]
    refine List.map_congr_left fun l _ => ?_
    show (fun l => (l.id, l.description, l.className, l.fallbackImage)) (checkImage fetchHead l)
      = (l.id, l.description, l.className, l.fallbackImage)
    unfold checkImage
    cases fetchHead l.image <;> rfl

end Partners

end HeliCheck
